import Mathlib

/-!
# Health-Agent: verification of the metric/preference/recommendation pipeline

Shallow embedding of the client-side data layer of the Health-Agent repository
(the HTTP wrappers in health.ts, streamAssistantChat, resolveErrorMessage,
ChangeItemCard, the HealthAppPage form handling) together with the server-side
store operations described by the module README and the specification (the
Python service itself is not part of the source tree; those operations are
modelled from the spec and marked as such in their doc comments).

JavaScript strings are embedded as `List Char`; JavaScript numbers as `ℚ`;
whitespace as ASCII whitespace; `JSON.parse` (a platform primitive) is a
parameter `parse : List Char → Option α` returning `none` where the platform
function would throw.
-/

/-- JavaScript strings, embedded as character lists. -/
abbrev Chars := List Char

/-! ## Data model (from the client type declarations) -/

/-- Structure `HealthMetric` from the client type declarations: one
body-composition record; `recorded_at` (an ISO timestamp string in the source)
is embedded as a natural-number instant. -/
structure HealthMetric where
  id : Nat
  user_id : Nat
  weight_kg : ℚ
  body_fat_percent : ℚ
  bmi : ℚ
  muscle_percent : ℚ
  water_percent : ℚ
  recorded_at : Nat
  note : Option String
deriving DecidableEq

/-- Structure `HealthMetricPayload` from the client type declarations: the body
of POST /health/metrics; `recorded_at` and `note` are optional. -/
structure HealthMetricPayload where
  weight_kg : ℚ
  body_fat_percent : ℚ
  bmi : ℚ
  muscle_percent : ℚ
  water_percent : ℚ
  recorded_at : Option Nat
  note : Option String
deriving DecidableEq

/-- Structure `HealthPreference` from the client type declarations: the
one-per-user preference record with six independently nullable fields. -/
structure HealthPreference where
  user_id : Nat
  target_weight_kg : Option ℚ
  calorie_budget_kcal : Option ℚ
  dietary_preference : Option String
  activity_level : Option String
  sleep_goal_hours : Option ℚ
  hydration_goal_liters : Option ℚ
deriving DecidableEq

/-- Structure `HealthPreferencePayload` from the client type declarations:
every field is optional and nullable.  `none` embeds an absent key, `some none`
an explicit null, `some (some v)` a present value. -/
structure HealthPreferencePayload where
  target_weight_kg : Option (Option ℚ)
  calorie_budget_kcal : Option (Option ℚ)
  dietary_preference : Option (Option String)
  activity_level : Option (Option String)
  sleep_goal_hours : Option (Option ℚ)
  hydration_goal_liters : Option (Option ℚ)
deriving DecidableEq

/-- Modelled from the spec: the `HealthRecommendation` record (its TypeScript
declaration is referenced by the client but the declaration file revision
holding it is not under src/); per the data model section of the spec it is a
summary plus five categorized suggestion lists with a creation timestamp. -/
structure HealthRecommendation where
  summary : String
  meal_plan : List String
  calorie_management : List String
  weight_management : List String
  hydration : List String
  lifestyle : List String
  created_at : Nat
deriving DecidableEq

/-! ## Client HTTP wrappers (health.ts) -/

/-- The caught request error as observed by the client wrappers: whether
`isAxiosError` holds of it and the value of the optional response status
(`none` when there is no response). -/
structure RequestError where
  isAxiosError : Bool
  responseStatus : Option Nat
deriving DecidableEq

/-- Client `fetchLatestMetric`: on success return the decoded record; on an
Axios error with response status 404 return null; rethrow every other error. -/
def fetchLatestMetric (result : Except RequestError HealthMetric) :
    Except RequestError (Option HealthMetric) :=
  match result with
  | .ok data => .ok (some data)
  | .error e =>
    if e.isAxiosError = true ∧ e.responseStatus = some 404 then .ok none
    else .error e

/-- Client `getLatestRecommendation`: same 404-to-null mapping as
`fetchLatestMetric`, for the latest-recommendation endpoint. -/
def getLatestRecommendation (result : Except RequestError HealthRecommendation) :
    Except RequestError (Option HealthRecommendation) :=
  match result with
  | .ok data => .ok (some data)
  | .error e =>
    if e.isAxiosError = true ∧ e.responseStatus = some 404 then .ok none
    else .error e

/-- Default argument of client `fetchMetricHistory`: the limit sent when the
caller passes one, 30 when the argument is omitted. -/
def fetchMetricHistoryLimit (limit : Option Nat) : Nat := limit.getD 30

/-! ## resolveErrorMessage (HealthAppPage) -/

/-- The optional detail/message shape the page casts the response data to. -/
structure AxiosErrorData where
  detail : Option String
  message : Option String
deriving DecidableEq

/-- The unknown value caught by the page handlers: an Axios error carrying the
optional response data (absent when there is no response or the data lacks the
expected shape), a plain Error instance, or any other thrown value. -/
inductive CaughtValue where
  | axios (responseData : Option AxiosErrorData)
  | errorInstance (message : String)
  | otherValue
deriving DecidableEq

/-- The fixed fallback message of the HealthAppPage `resolveErrorMessage`. -/
def requestFailedFallback : String := "请求失败，请稍后重试。"

/-- Function `resolveErrorMessage` from HealthAppPage: an Axios error yields
the payload detail, else the payload message, else the fallback; an Error
instance yields its message field; anything else yields the fallback. -/
def resolveErrorMessage : CaughtValue → String
  | .axios responseData =>
    match responseData with
    | some payload =>
      match payload.detail with
      | some d => d
      | none =>
        match payload.message with
        | some m => m
        | none => requestFailedFallback
    | none => requestFailedFallback
  | .errorInstance m => m
  | .otherValue => requestFailedFallback

/-! ## ChangeItemCard (client components) -/

/-- Structure `AgentChangeItem` as consumed by `ChangeItemCard`: a field name,
the proposed value (interpolated into a template string), and an optional
reason. -/
structure AgentChangeItem where
  field : String
  value : String
  reason : Option String
deriving DecidableEq

/-- One entry of the component field-configuration record. -/
structure FieldDisplayConfig where
  label : String
  emoji : String
  color : String
  unit : Option String
deriving DecidableEq

/-- The `fieldConfig` mapping of `ChangeItemCard`: the eleven known
metric/preference field names with their display configuration. -/
def fieldConfig : List (String × FieldDisplayConfig) :=
  [("weight_kg", ⟨"体重", "⚖️", "orange", some "kg"⟩),
   ("body_fat_percent", ⟨"体脂率", "🔥", "red", some "%"⟩),
   ("bmi", ⟨"BMI", "📊", "blue", none⟩),
   ("muscle_percent", ⟨"肌肉率", "💪", "green", some "%"⟩),
   ("water_percent", ⟨"水分率", "💧", "blue", some "%"⟩),
   ("target_weight_kg", ⟨"目标体重", "🎯", "orange", some "kg"⟩),
   ("calorie_budget_kcal", ⟨"热量预算", "🔥", "red", some "kcal"⟩),
   ("dietary_preference", ⟨"饮食偏好", "🍽️", "green", none⟩),
   ("activity_level", ⟨"活动水平", "🏃", "purple", none⟩),
   ("sleep_goal_hours", ⟨"睡眠目标", "😴", "blue", some "小时"⟩),
   ("hydration_goal_liters", ⟨"饮水目标", "💧", "blue", some "升"⟩)]

/-- The fallback configuration an unknown field resolves to: raw field name as
label, memo emoji, orange styling, no unit. -/
def fallbackFieldConfig (field : String) : FieldDisplayConfig :=
  ⟨field, "📝", "orange", none⟩

/-- The own property names of Object.prototype in a standard engine: property
access on an object literal falls back to these truthy inherited members
before yielding undefined. -/
def objectPrototypeKeys : List String :=
  ["constructor", "hasOwnProperty", "isPrototypeOf", "propertyIsEnumerable",
   "toLocaleString", "toString", "valueOf", "__proto__",
   "__defineGetter__", "__defineSetter__", "__lookupGetter__", "__lookupSetter__"]

/-- Result of a JavaScript property access on an object literal: an own
property value, a truthy member inherited from Object.prototype (a method, or
the prototype object itself for the proto accessor key), or undefined. -/
inductive JsProp (ν : Type) where
  | val (v : ν)
  | inherited
  | undef
deriving DecidableEq

/-- JavaScript property access on an object literal with the given own
entries: own key first, then the prototype chain, then undefined. -/
def jsGet {ν : Type} (l : List (String × ν)) (key : String) : JsProp ν :=
  match l.lookup key with
  | some v => JsProp.val v
  | none => if key ∈ objectPrototypeKeys then JsProp.inherited else JsProp.undef

/-- Embeds the component line taking `fieldConfig[changeItem.field] ||
fallback`: the fallback fires only when the access yields a falsy value, so a
truthy member inherited from Object.prototype is kept as the config. -/
def resolveFieldConfig (field : String) : JsProp FieldDisplayConfig :=
  match jsGet fieldConfig field with
  | JsProp.val cfg => JsProp.val cfg
  | JsProp.inherited => JsProp.inherited
  | JsProp.undef => JsProp.val (fallbackFieldConfig field)

/-- Reads the colour of the resolved config: undefined when the config is an
inherited member rather than a field configuration. -/
def resolvedConfigColor : JsProp FieldDisplayConfig → Option String
  | JsProp.val cfg => some cfg.color
  | _ => none

/-- One entry of the component colour-style record. -/
structure ColorStyle where
  bg : String
  text : String
  border : String
deriving DecidableEq

/-- The `colorMap` record of `ChangeItemCard`. -/
def colorMap : List (String × ColorStyle) :=
  [("orange", ⟨"#fff7ed", "#b45309", "#fed7aa"⟩),
   ("green", ⟨"#ecfdf5", "#047857", "#a7f3d0"⟩),
   ("blue", ⟨"#eff6ff", "#0c2d6b", "#bfdbfe"⟩),
   ("red", ⟨"#fef2f2", "#7f1d1d", "#fecaca"⟩),
   ("purple", ⟨"#faf5ff", "#6b21a8", "#e9d5ff"⟩)]

/-- Embeds the component line `const style = colorMap[config.color]`: an
undefined colour key is coerced to the string key spelled undefined, which is
not an own key of the colour map. -/
def resolveColorStyle (field : String) : JsProp ColorStyle :=
  match resolvedConfigColor (resolveFieldConfig field) with
  | some c => jsGet colorMap c
  | none => jsGet colorMap "undefined"

/-- Reads the unit of the resolved config: undefined for an inherited
member. -/
def resolvedConfigUnit : JsProp FieldDisplayConfig → Option String
  | JsProp.val cfg => cfg.unit
  | _ => none

/-- Embeds `displayValue`: append the configured unit to the value when the
configuration carries one. -/
def displayValue (item : AgentChangeItem) : String :=
  match resolvedConfigUnit (resolveFieldConfig item.field) with
  | some u => item.value ++ " " ++ u
  | none => item.value

/-- Whether rendering dereferences an undefined style: reading a property of
an undefined style throws a TypeError during render; any truthy style value
renders. -/
def changeItemCardRenderThrows (field : String) : Bool :=
  match resolveColorStyle field with
  | JsProp.undef => true
  | _ => false

/-! ## SSE event-stream processing (streamAssistantChat)

The client accumulates decoded text in a buffer, splits it on the
double-newline event separator, keeps the trailing (possibly incomplete)
segment as the new buffer, and for each complete event: trims it, requires the
data marker, strips the marker and following whitespace, skips empty payloads,
and JSON-decodes the rest; a failed decode logs a warning and skips the
event. -/

/-- Embeds the JavaScript split of the buffer on the double-newline separator:
leftmost-first splitting on the two-character separator, exactly as the string
split method behaves. -/
def sepSplit : Chars → List Chars
  | [] => [[]]
  | '\n' :: '\n' :: rest => [] :: sepSplit rest
  | c :: rest =>
    match sepSplit rest with
    | [] => [[c]]
    | p :: ps => (c :: p) :: ps

/-- JavaScript string trim: drop whitespace from both ends. -/
def trimChars (s : Chars) : Chars :=
  ((s.dropWhile Char.isWhitespace).reverse.dropWhile Char.isWhitespace).reverse

/-- The five-character data marker tested by the startsWith call on each
trimmed event. -/
def dataMarker : Chars := ['d', 'a', 't', 'a', ':']

/-- Embeds the regex replace that strips the data marker and the whitespace
run after it from an event that passed the startsWith test. -/
def eventPayload (event : Chars) : Chars :=
  ((trimChars event).drop dataMarker.length).dropWhile Char.isWhitespace

/-- Processing of one complete SSE event inside `processBuffer`: events that do
not start with the data marker, have an empty payload, or whose payload fails
to JSON-parse produce no chunk; well-formed events produce their decoded
chunk. -/
def processEvent (parse : Chars → Option α) (event : Chars) : Option α :=
  if dataMarker.isPrefixOf (trimChars event) then
    if (eventPayload event).isEmpty then none else parse (eventPayload event)
  else none

/-- Embeds `processBuffer`: split the buffer on the separator, pop the trailing
segment back into the buffer, and deliver the chunks of the complete events in
order. -/
def processBuffer (parse : Chars → Option α) (buffer : Chars) : List α × Chars :=
  let events := sepSplit buffer
  (events.dropLast.filterMap (processEvent parse), (events.getLast?).getD [])

/-- The read loop of `streamAssistantChat`: each read is appended to the buffer
and the buffer is processed; when the reader reports done the residual buffer
is processed one final time.  The result list is the sequence of onChunk calls
in order. -/
def streamReadLoop (parse : Chars → Option α) : List Chars → Chars → List α
  | [], buffer => (processBuffer parse buffer).1
  | value :: rest, buffer =>
    (processBuffer parse (buffer ++ value)).1 ++
      streamReadLoop parse rest (processBuffer parse (buffer ++ value)).2

/-- The complete (separator-terminated) events of a stream: everything the
split yields except the trailing segment. -/
def completeEvents (s : Chars) : List Chars := (sepSplit s).dropLast

/-- The trailing segment of a stream, retained as buffer after processing. -/
def residualBuffer (s : Chars) : Chars := ((sepSplit s).getLast?).getD []

/-- Fallback message thrown on a non-ok response whose text is empty. -/
def httpFailFallback : Chars := "AI 助手请求失败".toList

/-- Message of the error thrown when the response has no body. -/
def noStreamSupportMsg : Chars := "当前浏览器不支持流式响应".toList

/-- The fetch response as observed by `streamAssistantChat`: the ok flag, the
error text read in the failure path, and the body as the sequence of reads the
reader yields (`none` embeds a missing body). -/
structure FetchResponse where
  ok : Bool
  bodyText : Chars
  body : Option (List Chars)

/-- Embeds `streamAssistantChat`: throw on a non-ok response (with the
response text, or a fallback when it is empty), throw when the response has no
body, and otherwise run the read loop over the body reads. -/
def streamAssistantChat (parse : Chars → Option α) (response : FetchResponse) :
    Except Chars (List α) :=
  if response.ok = false then
    .error (if response.bodyText.isEmpty then httpFailFallback else response.bodyText)
  else
    match response.body with
    | none => .error noStreamSupportMsg
    | some reads => .ok (streamReadLoop parse reads [])

/-! ## HealthAppPage preference form handling -/

/-- A value of the antd preference form: undefined, null, a number or a
string, matching the entries iterated by `handleSavePreferences`. -/
inductive FormFieldValue where
  | undef
  | nullValue
  | numVal (value : ℚ)
  | strVal (value : String)
deriving DecidableEq

/-- Payload construction of `handleSavePreferences`: filter the form entries,
keeping exactly those whose value is not undefined (the newer page revision
uses fromEntries-of-filtered-entries, the older one an equivalent forEach with
an if-guard). -/
def handleSavePreferencesPayload (values : List (String × FormFieldValue)) :
    List (String × FormFieldValue) :=
  values.filter (fun kv => decide (kv.2 ≠ FormFieldValue.undef))

/-! ## Server-side stores

The Python service (HealthService / HealthDataDAO) is not under src/; only its
README and its client callers are.  The store operations below are modelled
from the spec (Metric Store, Preference Store, external interfaces) and from
the UI-side bounds that the spec designates as the authoritative ranges. -/

/-- The ValidationError of the spec error taxonomy. -/
structure ValidationError where
  message : String
deriving DecidableEq

/-- The metric ranges the spec fixes for record, equal to the InputNumber
bounds of the metric modal in both HealthAppPage revisions: weight 30–250 kg,
body-fat 5–70 %, BMI 10–60, muscle 10–80 %, water 20–80 %. -/
def metricPayloadValid (p : HealthMetricPayload) : Bool :=
  decide (30 ≤ p.weight_kg) && decide (p.weight_kg ≤ 250) &&
  decide (5 ≤ p.body_fat_percent) && decide (p.body_fat_percent ≤ 70) &&
  decide (10 ≤ p.bmi) && decide (p.bmi ≤ 60) &&
  decide (10 ≤ p.muscle_percent) && decide (p.muscle_percent ≤ 80) &&
  decide (20 ≤ p.water_percent) && decide (p.water_percent ≤ 80)

/-- The Metric Store state: an id counter and the persisted records. -/
structure MetricStore where
  nextId : Nat
  records : List HealthMetric
deriving DecidableEq

/-- Modelled from the spec: the server-side record operation of the Metric
Store is not under src/.  It fails with ValidationError if any numeric field
is outside its configured range, persisting nothing; otherwise it inserts a
new record, defaulting the timestamp to the current time. -/
def recordMetric (userId : Nat) (payload : HealthMetricPayload) (now : Nat)
    (st : MetricStore) : MetricStore × Except ValidationError HealthMetric :=
  if metricPayloadValid payload then
    let r : HealthMetric :=
      { id := st.nextId
        user_id := userId
        weight_kg := payload.weight_kg
        body_fat_percent := payload.body_fat_percent
        bmi := payload.bmi
        muscle_percent := payload.muscle_percent
        water_percent := payload.water_percent
        recorded_at := payload.recorded_at.getD now
        note := payload.note }
    ({ nextId := st.nextId + 1, records := r :: st.records }, .ok r)
  else
    (st, .error ⟨"metric field out of range"⟩)

/-- Validation of one optional numeric preference field: a present non-null
value must lie within the closed range; an absent field or an explicit null
passes. -/
def prefNumFieldValid (lo hi : ℚ) : Option (Option ℚ) → Bool
  | some (some v) => decide (lo ≤ v) && decide (v ≤ hi)
  | _ => true

/-- The preference ranges the spec fixes for update: target weight 1–200 kg,
calorie budget 600–5000 kcal, sleep 4–12 h, hydration 1–6 L; the two string
fields carry no range. -/
def preferencePayloadValid (p : HealthPreferencePayload) : Bool :=
  prefNumFieldValid 1 200 p.target_weight_kg &&
  prefNumFieldValid 600 5000 p.calorie_budget_kcal &&
  prefNumFieldValid 4 12 p.sleep_goal_hours &&
  prefNumFieldValid 1 6 p.hydration_goal_liters

/-- Modelled from the spec: the server-side update operation of the Preference
Store is not under src/.  An out-of-range present field rejects the whole
update with ValidationError (no state change at all); otherwise the payload is
merged: keys absent from the payload keep their prior value, an explicit null
clears its field. -/
def updatePreferences (payload : HealthPreferencePayload) (prefs : HealthPreference) :
    HealthPreference × Except ValidationError HealthPreference :=
  if preferencePayloadValid payload then
    let merged : HealthPreference :=
      { user_id := prefs.user_id
        target_weight_kg := payload.target_weight_kg.getD prefs.target_weight_kg
        calorie_budget_kcal := payload.calorie_budget_kcal.getD prefs.calorie_budget_kcal
        dietary_preference := payload.dietary_preference.getD prefs.dietary_preference
        activity_level := payload.activity_level.getD prefs.activity_level
        sleep_goal_hours := payload.sleep_goal_hours.getD prefs.sleep_goal_hours
        hydration_goal_liters := payload.hydration_goal_liters.getD prefs.hydration_goal_liters }
    (merged, .ok merged)
  else
    (prefs, .error ⟨"preference field out of range"⟩)

/-- Newest-first order on metric records: the earlier list element was
recorded no earlier than the later one. -/
def newestFirst (a b : HealthMetric) : Prop := b.recorded_at ≤ a.recorded_at

/-- Insertion step of the newest-first sort used to model ordered retrieval
from the store. -/
def insertByRecordedDesc (m : HealthMetric) : List HealthMetric → List HealthMetric
  | [] => [m]
  | x :: xs =>
    if x.recorded_at ≤ m.recorded_at then m :: x :: xs
    else x :: insertByRecordedDesc m xs

/-- Newest-first insertion sort over metric records. -/
def sortByRecordedDesc (l : List HealthMetric) : List HealthMetric :=
  l.foldr insertByRecordedDesc []

/-- Modelled from the spec: the server-side history operation is not under
src/.  It returns the records of the given user sorted newest first, truncated
to the requested limit. -/
def historyMetrics (userId : Nat) (limit : Nat) (st : MetricStore) : List HealthMetric :=
  (sortByRecordedDesc (st.records.filter (fun r => r.user_id == userId))).take limit

/-! ## Splitter lemmas -/

theorem sepSplit_ne_nil (s : Chars) : sepSplit s ≠ [] := by
  induction s using sepSplit.induct with
  | case1 => simp [sepSplit]
  | case2 rest ih => simp [sepSplit]
  | case3 c rest h hnil ih => exact absurd hnil ih
  | case4 c rest h p ps heq ih =>
    rw [sepSplit.eq_3 c rest h, heq]
    simp

theorem sepSplit_eq_singleton {s p : Chars} (h : sepSplit s = [p]) : p = s := by
  induction s using sepSplit.induct generalizing p with
  | case1 => rw [sepSplit.eq_1] at h; simpa using h.symm
  | case2 rest ih =>
    rw [sepSplit.eq_2] at h
    cases hrest : sepSplit rest with
    | nil => exact absurd hrest (sepSplit_ne_nil rest)
    | cons q qs => simp [hrest] at h
  | case3 c rest hg hnil ih => exact absurd hnil (sepSplit_ne_nil rest)
  | case4 c rest hg q qs heq ih =>
    rw [sepSplit.eq_3 c rest hg, heq] at h
    obtain ⟨h1, h2⟩ := List.cons_eq_cons.mp h
    subst h2
    rw [← h1, ih heq]

theorem sepSplit_append (s t : Chars) :
    sepSplit (s ++ t) =
      (sepSplit s).dropLast ++ sepSplit ((((sepSplit s).getLast?).getD []) ++ t) := by
  induction s using sepSplit.induct with
  | case1 => simp [sepSplit.eq_1]
  | case2 rest ih =>
    cases hrest : sepSplit rest with
    | nil => exact absurd hrest (sepSplit_ne_nil rest)
    | cons q qs =>
      have hcons : ('\n' :: '\n' :: rest) ++ t = '\n' :: '\n' :: (rest ++ t) := rfl
      rw [hcons, sepSplit.eq_2, sepSplit.eq_2, ih, hrest]
      simp
  | case3 c rest hg hnil ih => exact absurd hnil (sepSplit_ne_nil rest)
  | case4 c rest hg q qs heq ih =>
    cases qs with
    | nil =>
      have hq : q = rest := sepSplit_eq_singleton heq
      rw [sepSplit.eq_3 c rest hg, heq, hq]
      simp
    | cons q2 qs2 =>
      cases rest with
      | nil => rw [sepSplit.eq_1] at heq; simp at heq
      | cons r0 rest2 =>
        have hg2 : ∀ (r1 : List Char), c = '\n' → (r0 :: rest2) ++ t = '\n' :: r1 → False := by
          intro r1 hc happ
          have hr0 : r0 = '\n' := by
            have := congrArg (fun l => l.head?) happ
            simpa using this
          exact hg rest2 hc (by rw [hr0])
        have hcons : (c :: r0 :: rest2) ++ t = c :: ((r0 :: rest2) ++ t) := rfl
        rw [hcons, sepSplit.eq_3 c _ hg2, ih, heq, sepSplit.eq_3 c _ hg, heq]
        simp

theorem completeEvents_append (s t : Chars) :
    completeEvents (s ++ t) =
      completeEvents s ++ completeEvents (residualBuffer s ++ t) := by
  unfold completeEvents residualBuffer
  rw [sepSplit_append s t,
    List.dropLast_append_of_ne_nil _ (sepSplit_ne_nil _)]

theorem streamReadLoop_eq (parse : Chars → Option α) (reads : List Chars) (buffer : Chars) :
    streamReadLoop parse reads buffer =
      (completeEvents (buffer ++ reads.flatten)).filterMap (processEvent parse) := by
  induction reads generalizing buffer with
  | nil => simp [streamReadLoop, processBuffer, completeEvents]
  | cons v rest ih =>
    rw [streamReadLoop, ih]
    have hpb1 : (processBuffer parse (buffer ++ v)).1 =
        (completeEvents (buffer ++ v)).filterMap (processEvent parse) := rfl
    have hpb2 : (processBuffer parse (buffer ++ v)).2 = residualBuffer (buffer ++ v) := rfl
    rw [hpb1, hpb2, List.flatten_cons, ← List.append_assoc,
      completeEvents_append (buffer ++ v) rest.flatten, List.filterMap_append]

theorem filterMap_forall₂_of_isSome {β γ : Type} (f : β → Option γ) (l : List β)
    (h : ∀ x ∈ l, (f x).isSome) :
    List.Forall₂ (fun e c => f e = some c) l (l.filterMap f) := by
  induction l with
  | nil => simp
  | cons x xs ih =>
    obtain ⟨c, hc⟩ := Option.isSome_iff_exists.mp (h x (by simp))
    rw [List.filterMap_cons, hc]
    exact List.Forall₂.cons hc (ih fun y hy => h y (by simp [hy]))

theorem lookup_eq_none_of_not_mem_keys {κ ν : Type} [BEq κ] [LawfulBEq κ]
    (a : κ) (l : List (κ × ν)) (h : a ∉ l.map Prod.fst) : l.lookup a = none := by
  induction l with
  | nil => rfl
  | cons kv rest ih =>
    cases kv with
    | mk k v =>
      simp only [List.map_cons, List.mem_cons, not_or] at h
      rw [List.lookup_cons, beq_eq_false_iff_ne.mpr h.1]
      exact ih h.2

theorem lookup_mem_snd {κ ν : Type} [BEq κ] (a : κ) (l : List (κ × ν)) (b : ν)
    (h : l.lookup a = some b) : b ∈ l.map Prod.snd := by
  induction l with
  | nil => simp [List.lookup] at h
  | cons kv rest ih =>
    cases kv with
    | mk k v =>
      rw [List.lookup_cons] at h
      cases hak : a == k with
      | true => rw [hak] at h; simp at h; simp [h]
      | false => rw [hak] at h; simp [ih h]

theorem mem_insertByRecordedDesc {a m : HealthMetric} {l : List HealthMetric} :
    a ∈ insertByRecordedDesc m l ↔ a = m ∨ a ∈ l := by
  induction l with
  | nil => simp [insertByRecordedDesc]
  | cons x xs ih =>
    rw [insertByRecordedDesc]
    split
    · simp [List.mem_cons]
    · simp only [List.mem_cons, ih]
      tauto

theorem pairwise_insertByRecordedDesc (m : HealthMetric) (l : List HealthMetric)
    (h : List.Pairwise newestFirst l) :
    List.Pairwise newestFirst (insertByRecordedDesc m l) := by
  induction l with
  | nil => simp [insertByRecordedDesc, newestFirst]
  | cons x xs ih =>
    rw [List.pairwise_cons] at h
    obtain ⟨hx, hxs⟩ := h
    rw [insertByRecordedDesc]
    split
    · next hle =>
      rw [List.pairwise_cons]
      refine ⟨?_, List.pairwise_cons.mpr ⟨hx, hxs⟩⟩
      intro b hb
      rcases List.mem_cons.mp hb with rfl | hbxs
      · exact hle
      · exact le_trans (hx b hbxs) hle
    · next hgt =>
      rw [List.pairwise_cons]
      refine ⟨?_, ih hxs⟩
      intro b hb
      rcases mem_insertByRecordedDesc.mp hb with rfl | hbxs
      · exact le_of_lt (lt_of_not_le hgt)
      · exact hx b hbxs

theorem pairwise_sortByRecordedDesc (l : List HealthMetric) :
    List.Pairwise newestFirst (sortByRecordedDesc l) := by
  induction l with
  | nil => simp [sortByRecordedDesc]
  | cons x xs ih =>
    rw [sortByRecordedDesc, List.foldr_cons]
    exact pairwise_insertByRecordedDesc x _ ih

theorem jsGet_colorMap_of_color {c : String}
    (h : c = "orange" ∨ c = "green" ∨ c = "blue" ∨ c = "red" ∨ c = "purple") :
    ∃ s, jsGet colorMap c = JsProp.val s := by
  rcases h with rfl | rfl | rfl | rfl | rfl <;> exact ⟨_, rfl⟩

/-! ## The claims -/

/-- Claim C1: every metric field is constrained to its configured range
(weight 30–250, body-fat 5–70, BMI 10–60, muscle 10–80, water 20–80), and a
payload with any field outside its range makes record fail with
ValidationError without persisting anything. -/
theorem c1_record_validates_ranges (userId : Nat) (p : HealthMetricPayload)
    (now : Nat) (st : MetricStore) :
    (metricPayloadValid p = true ↔
      ((30 ≤ p.weight_kg ∧ p.weight_kg ≤ 250) ∧
       (5 ≤ p.body_fat_percent ∧ p.body_fat_percent ≤ 70) ∧
       (10 ≤ p.bmi ∧ p.bmi ≤ 60) ∧
       (10 ≤ p.muscle_percent ∧ p.muscle_percent ≤ 80) ∧
       (20 ≤ p.water_percent ∧ p.water_percent ≤ 80))) ∧
    (metricPayloadValid p = false →
      (recordMetric userId p now st).1 = st ∧
      (recordMetric userId p now st).2 = Except.error ⟨"metric field out of range"⟩) := by
  constructor
  · simp [metricPayloadValid, and_assoc]
  · intro h
    simp [recordMetric, h]

theorem c1_witness :
    metricPayloadValid ⟨10, 20, 20, 20, 30, none, none⟩ = false ∧
    (recordMetric 1 ⟨10, 20, 20, 20, 30, none, none⟩ 0 ⟨0, []⟩).1 = ⟨0, []⟩ ∧
    (recordMetric 1 ⟨10, 20, 20, 20, 30, none, none⟩ 0 ⟨0, []⟩).2 =
      Except.error ⟨"metric field out of range"⟩ := by
  refine ⟨by decide, ?_, ?_⟩
  · exact ((c1_record_validates_ranges 1 _ 0 _).2 (by decide)).1
  · exact ((c1_record_validates_ranges 1 _ 0 _).2 (by decide)).2

theorem prefNumFieldValid_iff (lo hi : ℚ) (o : Option (Option ℚ)) :
    prefNumFieldValid lo hi o = true ↔ ∀ v, o = some (some v) → lo ≤ v ∧ v ≤ hi := by
  rcases o with _ | o2
  · simp [prefNumFieldValid]
  · rcases o2 with _ | v
    · simp [prefNumFieldValid]
    · simp [prefNumFieldValid]

/-- Claim C2: every present preference field is validated against its own
range (target weight 1–200, calorie budget 600–5000, sleep 4–12, hydration
1–6), and any out-of-range value rejects the whole update with
ValidationError with no state change at all. -/
theorem c2_update_validates_ranges (payload : HealthPreferencePayload)
    (prefs : HealthPreference) :
    (preferencePayloadValid payload = true ↔
      ((∀ v, payload.target_weight_kg = some (some v) → 1 ≤ v ∧ v ≤ 200) ∧
       (∀ v, payload.calorie_budget_kcal = some (some v) → 600 ≤ v ∧ v ≤ 5000) ∧
       (∀ v, payload.sleep_goal_hours = some (some v) → 4 ≤ v ∧ v ≤ 12) ∧
       (∀ v, payload.hydration_goal_liters = some (some v) → 1 ≤ v ∧ v ≤ 6))) ∧
    (preferencePayloadValid payload = false →
      (updatePreferences payload prefs).1 = prefs ∧
      (updatePreferences payload prefs).2 =
        Except.error ⟨"preference field out of range"⟩) := by
  constructor
  · rw [preferencePayloadValid, Bool.and_eq_true, Bool.and_eq_true, Bool.and_eq_true,
      prefNumFieldValid_iff, prefNumFieldValid_iff, prefNumFieldValid_iff,
      prefNumFieldValid_iff, and_assoc, and_assoc]
  · intro h
    simp [updatePreferences, h]

theorem c2_witness :
    preferencePayloadValid ⟨none, none, none, none, none, some (some 10)⟩ = false ∧
    (updatePreferences ⟨none, none, none, none, none, some (some 10)⟩
        ⟨1, none, none, none, none, none, none⟩).1 =
      ⟨1, none, none, none, none, none, none⟩ ∧
    (updatePreferences ⟨none, none, none, none, none, some (some 10)⟩
        ⟨1, none, none, none, none, none, none⟩).2 =
      Except.error ⟨"preference field out of range"⟩ := by
  refine ⟨by decide, ?_, ?_⟩
  · exact ((c2_update_validates_ranges _ _).2 (by decide)).1
  · exact ((c2_update_validates_ranges _ _).2 (by decide)).2

/-- Claim C3: a successful preference update changes only fields present in
the payload — an absent field keeps its prior value, an explicit null clears
exactly its field — and the client payload builder keeps exactly the form
entries whose value is not undefined, so absent form values are never sent. -/
theorem c3_update_merge_frame (payload : HealthPreferencePayload)
    (prefs : HealthPreference) (hvalid : preferencePayloadValid payload = true) :
    ((payload.target_weight_kg = none →
        (updatePreferences payload prefs).1.target_weight_kg = prefs.target_weight_kg) ∧
     (payload.target_weight_kg = some none →
        (updatePreferences payload prefs).1.target_weight_kg = none)) ∧
    ((payload.calorie_budget_kcal = none →
        (updatePreferences payload prefs).1.calorie_budget_kcal = prefs.calorie_budget_kcal) ∧
     (payload.calorie_budget_kcal = some none →
        (updatePreferences payload prefs).1.calorie_budget_kcal = none)) ∧
    ((payload.dietary_preference = none →
        (updatePreferences payload prefs).1.dietary_preference = prefs.dietary_preference) ∧
     (payload.dietary_preference = some none →
        (updatePreferences payload prefs).1.dietary_preference = none)) ∧
    ((payload.activity_level = none →
        (updatePreferences payload prefs).1.activity_level = prefs.activity_level) ∧
     (payload.activity_level = some none →
        (updatePreferences payload prefs).1.activity_level = none)) ∧
    ((payload.sleep_goal_hours = none →
        (updatePreferences payload prefs).1.sleep_goal_hours = prefs.sleep_goal_hours) ∧
     (payload.sleep_goal_hours = some none →
        (updatePreferences payload prefs).1.sleep_goal_hours = none)) ∧
    ((payload.hydration_goal_liters = none →
        (updatePreferences payload prefs).1.hydration_goal_liters = prefs.hydration_goal_liters) ∧
     (payload.hydration_goal_liters = some none →
        (updatePreferences payload prefs).1.hydration_goal_liters = none)) ∧
    (∀ (values : List (String × FormFieldValue)) (k : String) (v : FormFieldValue),
      (k, v) ∈ handleSavePreferencesPayload values ↔
        (k, v) ∈ values ∧ v ≠ FormFieldValue.undef) := by
  refine ⟨⟨?_, ?_⟩, ⟨?_, ?_⟩, ⟨?_, ?_⟩, ⟨?_, ?_⟩, ⟨?_, ?_⟩, ⟨?_, ?_⟩, ?entries⟩
  case entries => intro values k v; simp [handleSavePreferencesPayload, List.mem_filter]
  all_goals intro h; simp [updatePreferences, hvalid, h]

theorem c3_witness :
    preferencePayloadValid ⟨some none, none, none, none, none, some (some 2)⟩ = true ∧
    (updatePreferences ⟨some none, none, none, none, none, some (some 2)⟩
        ⟨1, some 70, some 2000, none, none, none, none⟩).1.target_weight_kg = none ∧
    (updatePreferences ⟨some none, none, none, none, none, some (some 2)⟩
        ⟨1, some 70, some 2000, none, none, none, none⟩).1.calorie_budget_kcal = some 2000 := by
  refine ⟨by decide, ?_, ?_⟩
  · exact (c3_update_merge_frame _ _ (by decide)).1.2 rfl
  · exact (c3_update_merge_frame _ _ (by decide)).2.1.1 rfl

/-- Claim C4: both latest-record wrappers map an Axios 404 to null, rethrow
every other error unchanged, and return the decoded record on success. -/
theorem c4_latest_404_to_null :
    (∀ e : RequestError, e.isAxiosError = true → e.responseStatus = some 404 →
      fetchLatestMetric (.error e) = .ok none ∧
      getLatestRecommendation (.error e) = .ok none) ∧
    (∀ e : RequestError, ¬(e.isAxiosError = true ∧ e.responseStatus = some 404) →
      fetchLatestMetric (.error e) = .error e ∧
      getLatestRecommendation (.error e) = .error e) ∧
    (∀ m : HealthMetric, fetchLatestMetric (.ok m) = .ok (some m)) ∧
    (∀ r : HealthRecommendation, getLatestRecommendation (.ok r) = .ok (some r)) := by
  refine ⟨?_, ?_, fun m => rfl, fun r => rfl⟩
  · intro e h1 h2
    exact ⟨by simp [fetchLatestMetric, h1, h2], by simp [getLatestRecommendation, h1, h2]⟩
  · intro e h
    exact ⟨by simp [fetchLatestMetric, h], by simp [getLatestRecommendation, h]⟩

theorem c4_witness :
    fetchLatestMetric (.error ⟨true, some 404⟩) = .ok none ∧
    getLatestRecommendation (.error ⟨true, some 500⟩) = .error ⟨true, some 500⟩ :=
  ⟨(c4_latest_404_to_null.1 ⟨true, some 404⟩ rfl rfl).1,
   (c4_latest_404_to_null.2.1 ⟨true, some 500⟩ (by decide)).2⟩

/-- Claim C5: history with limit N returns at most N records, sorted newest
first, and the client default applies limit 30 when the argument is
omitted. -/
theorem c5_history_limit_sorted (userId limit : Nat) (st : MetricStore) :
    (historyMetrics userId limit st).length ≤ limit ∧
    List.Pairwise newestFirst (historyMetrics userId limit st) ∧
    fetchMetricHistoryLimit none = 30 := by
  refine ⟨List.length_take_le _ _, ?_, rfl⟩
  exact List.Pairwise.sublist (List.take_sublist _ _) (pairwise_sortByRecordedDesc _)

/-- Claim C6: streamAssistantChat throws on a non-ok response (response text,
or a fallback when empty) and on a missing body; on success it delivers, in
stream order, one chunk per complete well-formed data event, each chunk being
the JSON-decoded payload. -/
theorem c6_streamAssistantChat_chunks {α : Type} (parse : Chars → Option α)
    (response : FetchResponse) :
    (response.ok = false →
      streamAssistantChat parse response =
        .error (if response.bodyText.isEmpty then httpFailFallback else response.bodyText)) ∧
    (response.ok = true → response.body = none →
      streamAssistantChat parse response = .error noStreamSupportMsg) ∧
    (∀ reads, response.ok = true → response.body = some reads →
      streamAssistantChat parse response =
        .ok ((completeEvents reads.flatten).filterMap (processEvent parse)) ∧
      ((∀ e ∈ completeEvents reads.flatten, (processEvent parse e).isSome) →
        List.Forall₂ (fun e c => processEvent parse e = some c)
          (completeEvents reads.flatten)
          ((completeEvents reads.flatten).filterMap (processEvent parse)))) := by
  refine ⟨?_, ?_, ?_⟩
  · intro hok
    simp [streamAssistantChat, hok]
  · intro hok hb
    simp [streamAssistantChat, hok, hb]
  · intro reads hok hb
    refine ⟨?_, ?_⟩
    · simp [streamAssistantChat, hok, hb, streamReadLoop_eq]
    · intro hall
      exact filterMap_forall₂_of_isSome _ _ hall

theorem c6_witness :
    streamAssistantChat (some : Chars → Option Chars) ⟨false, [], none⟩ =
      Except.error httpFailFallback ∧
    streamAssistantChat (some : Chars → Option Chars)
        ⟨true, [], some ["data: x\n\ndata: y\n\n".toList]⟩ =
      Except.ok ["x".toList, "y".toList] := by
  constructor
  · simpa using
      (c6_streamAssistantChat_chunks (some : Chars → Option Chars) ⟨false, [], none⟩).1 rfl
  · have h := ((c6_streamAssistantChat_chunks (some : Chars → Option Chars)
      ⟨true, [], some ["data: x\n\ndata: y\n\n".toList]⟩).2.2
      ["data: x\n\ndata: y\n\n".toList] rfl rfl).1
    exact h.trans (by rfl)

/-- Claim C7: resolveErrorMessage is total and silent-failure-free: an Axios
error yields the payload detail, else the payload message, else the fixed
non-empty fallback; an Error instance yields its message; anything else
yields the fallback. -/
theorem c7_resolveErrorMessage_total :
    (∀ d m, resolveErrorMessage (.axios (some ⟨some d, m⟩)) = d) ∧
    (∀ m, resolveErrorMessage (.axios (some ⟨none, some m⟩)) = m) ∧
    resolveErrorMessage (.axios (some ⟨none, none⟩)) = requestFailedFallback ∧
    resolveErrorMessage (.axios none) = requestFailedFallback ∧
    (∀ m, resolveErrorMessage (.errorInstance m) = m) ∧
    resolveErrorMessage .otherValue = requestFailedFallback ∧
    requestFailedFallback ≠ "" :=
  ⟨fun d m => rfl, fun m => rfl, rfl, rfl, fun m => rfl, rfl, by decide⟩

/-- Claim C8: a complete event that does not begin with the data marker, or
whose payload fails to JSON-parse, is skipped without a chunk and without
aborting the stream: every other well-formed event is still delivered. -/
theorem c8_malformed_event_skipped {α : Type} (parse : Chars → Option α)
    (reads : List Chars) (es1 es2 : List Chars) (e : Chars)
    (h : completeEvents reads.flatten = es1 ++ e :: es2)
    (hbad : ¬ dataMarker.isPrefixOf (trimChars e) ∨ parse (eventPayload e) = none) :
    processEvent parse e = none ∧
    streamReadLoop parse reads [] =
      es1.filterMap (processEvent parse) ++ es2.filterMap (processEvent parse) := by
  have hskip : processEvent parse e = none := by
    unfold processEvent
    rcases hbad with hb | hb
    · rw [if_neg hb]
    · split
      · split
        · rfl
        · exact hb
      · rfl
  refine ⟨hskip, ?_⟩
  rw [streamReadLoop_eq, List.nil_append, h, List.filterMap_append]
  simp [List.filterMap_cons, hskip]

theorem c8_witness :
    completeEvents (["data: 1\n\noops\n\ndata: nope\n\ndata: 1\n\n".toList] : List Chars).flatten =
      ["data: 1".toList] ++ "oops".toList :: ["data: nope".toList, "data: 1".toList] ∧
    ¬ dataMarker.isPrefixOf (trimChars "oops".toList) ∧
    streamReadLoop (fun s => if s = "1".toList then some s else none)
        ["data: 1\n\noops\n\ndata: nope\n\ndata: 1\n\n".toList] [] =
      ["1".toList, "1".toList] := by
  refine ⟨by rfl, by decide, ?_⟩
  have h := c8_malformed_event_skipped
    (fun s => if s = "1".toList then some s else none)
    ["data: 1\n\noops\n\ndata: nope\n\ndata: 1\n\n".toList]
    ["data: 1".toList] ["data: nope".toList, "data: 1".toList] "oops".toList
    (by rfl) (Or.inl (by decide))
  exact h.2.trans (by rfl)

/-- Claim C9: the delivered chunk sequence depends only on the concatenation
of the reads, not on how the stream is split into reads: the incomplete tail
is carried in the buffer between reads and the residue is processed after the
final read. -/
theorem c9_chunking_independent {α : Type} (parse : Chars → Option α)
    (reads1 reads2 : List Chars) (h : reads1.flatten = reads2.flatten) :
    streamReadLoop parse reads1 [] = streamReadLoop parse reads2 [] := by
  rw [streamReadLoop_eq, streamReadLoop_eq, h]

theorem c9_witness :
    (["data: a\n\nda".toList, "ta: b\n\n".toList] : List Chars).flatten =
      (["data: a\n\ndata: b\n\n".toList] : List Chars).flatten ∧
    streamReadLoop (some : Chars → Option Chars)
        ["data: a\n\nda".toList, "ta: b\n\n".toList] [] =
      streamReadLoop (some : Chars → Option Chars) ["data: a\n\ndata: b\n\n".toList] [] :=
  ⟨rfl, c9_chunking_independent (some : Chars → Option Chars) _ _ rfl⟩

/-- Claim C10, refuted as stated: for the field name toString (an
Object.prototype property name), the config access returns the truthy
inherited member, the fallback does not fire, the colour lookup is undefined,
and rendering dereferences an undefined style. -/
theorem c10_counterexample :
    resolveFieldConfig "toString" ≠ JsProp.val (fallbackFieldConfig "toString") ∧
    resolveFieldConfig "toString" = JsProp.inherited ∧
    resolveColorStyle "toString" = JsProp.undef ∧
    changeItemCardRenderThrows "toString" = true := by
  decide

/-- Claim C10 (amended): for every change item whose field name is not an
Object.prototype property name, ChangeItemCard resolves a complete display
configuration: the colour lookup yields an own style, and a field not among
the eleven known names falls back to the default configuration (raw label,
memo emoji, orange styling, no unit).  The original claim quantified over all
field names; prototype property names such as toString falsify it. -/
theorem c10_changeItemCard_total (item : AgentChangeItem)
    (hproto : item.field ∉ objectPrototypeKeys) :
    (∃ style, resolveColorStyle item.field = JsProp.val style) ∧
    (item.field ∉ fieldConfig.map Prod.fst →
      resolveFieldConfig item.field = JsProp.val (fallbackFieldConfig item.field)) := by
  have hfallback : fieldConfig.lookup item.field = none →
      resolveFieldConfig item.field = JsProp.val (fallbackFieldConfig item.field) := by
    intro hl
    simp [resolveFieldConfig, jsGet, hl, hproto]
  constructor
  · rcases hl : fieldConfig.lookup item.field with _ | cfg
    · have h1 := hfallback hl
      have h2 : resolveColorStyle item.field = jsGet colorMap "orange" := by
        simp only [resolveColorStyle, h1, resolvedConfigColor, fallbackFieldConfig]
      exact (jsGet_colorMap_of_color (Or.inl rfl)).imp fun s hs => h2.trans hs
    · have h1 : resolveFieldConfig item.field = JsProp.val cfg := by
        simp [resolveFieldConfig, jsGet, hl]
      have h2 : resolveColorStyle item.field = jsGet colorMap cfg.color := by
        simp only [resolveColorStyle, h1, resolvedConfigColor]
      have hmem : cfg ∈ fieldConfig.map Prod.snd := lookup_mem_snd _ _ _ hl
      simp only [fieldConfig, List.map_cons, List.map_nil, List.mem_cons,
        List.not_mem_nil, or_false] at hmem
      rcases hmem with h | h | h | h | h | h | h | h | h | h | h <;> subst h <;>
        exact (jsGet_colorMap_of_color (by decide)).imp fun s hs => h2.trans hs
  · intro hnot
    exact hfallback (lookup_eq_none_of_not_mem_keys _ _ hnot)

theorem c10_witness :
    ("custom_field" ∉ objectPrototypeKeys) ∧
    ("custom_field" ∉ fieldConfig.map Prod.fst) ∧
    (∃ style, resolveColorStyle "custom_field" = JsProp.val style) ∧
    resolveFieldConfig "custom_field" = JsProp.val (fallbackFieldConfig "custom_field") :=
  ⟨by decide, by decide,
   (c10_changeItemCard_total ⟨"custom_field", "1", none⟩ (by decide)).1,
   (c10_changeItemCard_total ⟨"custom_field", "1", none⟩ (by decide)).2 (by decide)⟩
